import Mathlib

/-!
Shallow embedding of the single-page task list application (`src/app.js` and
its form-submit variant) and proofs of its specified properties.

Modelling conventions:
* A JSON value (`Json`) stands for the result of the platform's `JSON.parse`;
  `localStorage` text that `JSON.parse` rejects is modelled by the dedicated
  `StoredValue.malformed` constructor, and an absent key by
  `StoredValue.absent`.  `JSON.stringify` followed by `JSON.parse` is the
  identity on the values this program stores (integer ids below 2^53 and
  plain strings), so serialisation is modelled at the value level.
* The mutable page state (the global `tasks` array, the stored value, the
  rendered table body, the transient message region, the console, the
  dispatched network requests) is one record `AppState`; each source
  statement that mutates it becomes a state-passing function.
* The order in which `addTask` performs its effects is recorded in an
  `events` observation log, so that temporal claims about effect order are
  ordinary equalities on lists.
-/

set_option autoImplicit false

namespace TaskManager

/-- JSON values as produced by `JSON.parse`: null, booleans, numbers
(integers suffice for this program: ids are millisecond epochs), strings,
arrays and objects. -/
inductive Json where
  | null
  | bool (b : Bool)
  | num (n : Int)
  | str (s : String)
  | arr (elems : List Json)
  | obj (fields : List (String × Json))
  deriving Repr

/-- A task record, exactly the object literal built in `addTask`:
`{ id: Date.now(), title, status, createdAt: new Date().toLocaleString() }`. -/
structure Task where
  id : Int
  title : String
  status : String
  createdAt : String
  deriving DecidableEq, Repr

/-- The value found under the `"tasks"` localStorage key: the key may be
absent (`localStorage.getItem` returns null), hold text that `JSON.parse`
rejects, or hold text that parses to a JSON value. -/
inductive StoredValue where
  | absent
  | malformed
  | value (j : Json)
  deriving Repr

/-- Serialisation of one task by `JSON.stringify`: an object with exactly
the fields id, title, status, createdAt in that order. -/
def taskToJson (t : Task) : Json :=
  .obj [("id", .num t.id), ("title", .str t.title),
        ("status", .str t.status), ("createdAt", .str t.createdAt)]

/-- Embeds `saveTasks`: `localStorage.setItem(STORAGE_KEY, JSON.stringify(tasks))`
overwrites the stored value with the serialised whole list. -/
def saveTasks (tasks : List Task) : StoredValue :=
  .value (.arr (tasks.map taskToJson))

/-- Embeds `loadTasks`: a missing key yields `[]`; text that fails to parse
is caught and yields `[]`; a parsed value passes `Array.isArray` and is
returned as-is when it is an array, else `[]`.  Note the code never checks
that the array's elements are task records. -/
def loadTasks : StoredValue → List Json
  | .absent => []
  | .malformed => []
  | .value (.arr elems) => elems
  | .value _ => []

/-- First matching key in a JSON object's field list, mirroring JavaScript
property access on a parsed object. -/
def lookupField : List (String × Json) → String → Option Json
  | [], _ => none
  | (k, v) :: rest, key => if k = key then some v else lookupField rest key

/-- Property access `j[key]` on a JSON value: defined on objects, and
`undefined` (here `none`) otherwise. -/
def jsonField (j : Json) (key : String) : Option Json :=
  match j with
  | .obj fields => lookupField fields key
  | _ => none

/-- Escaping of one character, modelling the platform behaviour behind
`escapeHtml` (`div.innerText = text; return div.innerHTML`): the innerText
setter turns each line break into a `br` element, and HTML text-node
serialisation escapes `&`, `<`, `>` and non-breaking spaces — and nothing
else (in particular quotes stay as they are).  A `\r\n` pair becomes a
single `br` in a browser; this per-character model writes two, which is
irrelevant here because titles come from a single-line text input and can
contain no line breaks. -/
def escChar (c : Char) : List Char :=
  if c = '&' then ['&', 'a', 'm', 'p', ';']
  else if c = '<' then ['&', 'l', 't', ';']
  else if c = '>' then ['&', 'g', 't', ';']
  else if c = ' ' then ['&', 'n', 'b', 's', 'p', ';']
  else if c = '\n' ∨ c = '\r' then ['<', 'b', 'r', '>']
  else [c]

/-- Embeds `escapeHtml`: the text is round-tripped through a detached
element (`innerText` write, `innerHTML` read), i.e. serialised
character by character via `escChar`. -/
def escapeHtml (text : String) : String :=
  String.mk (text.toList.flatMap escChar)

/-- Decoding of HTML text content back to the text a browser displays:
the inverse of text-node serialisation on the entities `escChar` emits. -/
def renderTextAux : List Char → List Char
  | [] => []
  | '&' :: 'a' :: 'm' :: 'p' :: ';' :: rest => '&' :: renderTextAux rest
  | '&' :: 'l' :: 't' :: ';' :: rest => '<' :: renderTextAux rest
  | '&' :: 'g' :: 't' :: ';' :: rest => '>' :: renderTextAux rest
  | '&' :: 'n' :: 'b' :: 's' :: 'p' :: ';' :: rest => ' ' :: renderTextAux rest
  | c :: rest => c :: renderTextAux rest

/-- Text a browser displays for a fragment of HTML text content. -/
def renderText (s : String) : String :=
  String.mk (renderTextAux s.toList)

/-- A string with no `<` and no `>` can never be interpreted as markup:
no tag, comment or script can start inside it. -/
def markupSafe (s : String) : Bool :=
  s.toList.all fun c => !(c = '<' : Bool) && !(c = '>' : Bool)

/-- One rendered `<tr>` of the task table: either the colspan placeholder
shown when the list is empty, or one row per task with the four cells
built in `renderTasks` (escaped title, raw status, raw createdAt, and a
delete button whose `data-id` carries the task id). -/
inductive Row where
  | emptyRow (message : String)
  | taskRow (titleCell : String) (statusCell : String)
      (createdAtCell : String) (deleteId : Int)
  deriving DecidableEq, Repr

/-- True exactly on task rows (not on the placeholder). -/
def Row.isTaskRow : Row → Bool
  | .taskRow _ _ _ _ => true
  | .emptyRow _ => false

/-- The placeholder row `renderTasks` creates when the list is empty. -/
def noTasksRow : Row :=
  .emptyRow "No tasks yet. Add one above."

/-- Embeds `renderTasks` as the list of rows it leaves in the table body:
old rows are discarded (the result does not depend on previous rows), the
empty list yields exactly the placeholder row, and otherwise `forEach`
appends one row per task in list order. -/
def renderTasks (tasks : List Task) : List Row :=
  if tasks.length = 0 then [noTasksRow]
  else tasks.map fun t => .taskRow (escapeHtml t.title) t.status t.createdAt t.id

/-- Number of task rows in a rendered table body. -/
def taskRowCount (rows : List Row) : Nat :=
  (rows.filter Row.isTaskRow).length

/-- Characters removed by JavaScript `String.prototype.trim`: the
ECMAScript WhiteSpace production (tab, vertical tab, form feed,
zero-width no-break space, and every Unicode Space_Separator code point:
space, no-break space, ogham space mark U+1680, the U+2000-U+200A range,
narrow no-break space U+202F, medium mathematical space U+205F and
ideographic space U+3000) and the LineTerminator production (LF, CR,
line separator U+2028, paragraph separator U+2029). -/
def jsWhitespace (c : Char) : Bool :=
  c = ' ' || c = '\t' || c = '\n' || c = '\r' ||
  c = '\u000b' || c = '\u000c' || c = '\u00a0' ||
  c = '\u1680' || ('\u2000' ≤ c && c ≤ '\u200a') ||
  c = '\u202f' || c = '\u205f' || c = '\u3000' ||
  c = '\u2028' || c = '\u2029' || c = '\ufeff'

/-- JavaScript `text.trim()`: leading and trailing whitespace removed. -/
def jsTrim (s : String) : String :=
  String.mk (((s.toList.dropWhile jsWhitespace).reverse.dropWhile
    jsWhitespace).reverse)

/-- Observable side effects of the add/delete paths, logged in the order
the source statements run, so that ordering claims are list equalities. -/
inductive Event where
  | saveEv
  | renderEv
  | syncDispatchEv
  | alertEv
  deriving DecidableEq, Repr

/-- The whole mutable page state: the global `tasks` array, the
localStorage slot under `STORAGE_KEY`, the rows in `taskTableBody`, the
two input controls, the `alert` dialogs shown, the transient `saveMessage`
texts shown (with their error flag), `console.error` output, the bodies of
dispatched sync requests, and the effect log. -/
structure AppState where
  tasks : List Task
  stored : StoredValue
  rendered : List Row
  titleInput : String
  statusInput : String
  alerts : List String
  saveMessages : List (String × Bool)
  consoleErrors : List String
  syncDispatches : List Json
  events : List Event

/-- Embeds a call of `saveTasks()` as a state step: serialise the current
global list into the storage slot. -/
def doSave (s : AppState) : AppState :=
  { s with stored := saveTasks s.tasks, events := s.events ++ [.saveEv] }

/-- Embeds a call of `renderTasks()` as a state step: the table body is
replaced wholesale by the rows for the current list. -/
def doRender (s : AppState) : AppState :=
  { s with rendered := renderTasks s.tasks, events := s.events ++ [.renderEv] }

/-- Embeds `showSaveMessage(messageText, isError)`: the transient message
region shows the text (auto-hidden 1800 ms later; the timer is not part of
the state, only the sequence of messages shown is). -/
def showSaveMessage (messageText : String) (isError : Bool) (s : AppState) : AppState :=
  { s with saveMessages := s.saveMessages ++ [(messageText, isError)] }

/-- Request body built in `sendTaskToSheet`:
`JSON.stringify({ title: task.title, status: task.status })` — exactly the
two fields title and status. -/
def syncBody (t : Task) : Json :=
  .obj [("title", .str t.title), ("status", .str t.status)]

/-- Dispatch of the background `fetch` in `sendTaskToSheet`: the request
body is recorded; the response is handled later by `resolveSync` (the
function is `async` and suspends only its own continuation). -/
def doDispatchSync (t : Task) (s : AppState) : AppState :=
  { s with syncDispatches := s.syncDispatches ++ [syncBody t],
           events := s.events ++ [.syncDispatchEv] }

/-- Embeds `addTask()` for a call at millisecond epoch `now` whose
`new Date().toLocaleString()` is `nowLocale`.  Returns the new state and
the function's JavaScript return value (which is `undefined`, i.e. `none`,
on both paths).  Source order: read and trim the title, validate, build
the task, push, `saveTasks()`, `renderTasks()`, `sendTaskToSheet(newTask)`,
clear the input. -/
def addTask (now : Int) (nowLocale : String) (s : AppState) : AppState × Option Task :=
  let title := jsTrim s.titleInput
  let status := s.statusInput
  if title = "" then
    ({ s with alerts := s.alerts ++ ["Please enter a task title."],
              events := s.events ++ [.alertEv] }, none)
  else
    let newTask : Task := { id := now, title := title, status := status,
                            createdAt := nowLocale }
    let s1 := { s with tasks := s.tasks ++ [newTask] }
    let s2 := doRender (doSave s1)
    let s3 := doDispatchSync newTask s2
    ({ s3 with titleInput := "" }, none)

/-- Embeds `deleteTask(taskId)`: keep the tasks whose id differs
(`task.id !== taskId`), then `saveTasks()` and `renderTasks()`. -/
def deleteTask (taskId : Int) (s : AppState) : AppState :=
  doRender (doSave { s with tasks := s.tasks.filter fun t => t.id != taskId })

/-- Outcome of one `fetch` in `sendTaskToSheet`: the promise resolves with
an ok response, resolves with a non-ok status (whose body is then read as
text), or rejects with a network error. -/
inductive FetchOutcome where
  | ok
  | httpError (status : Nat) (body : String)
  | networkError (message : String)
  deriving DecidableEq, Repr

/-- Continuation of `sendTaskToSheet` once its `fetch` settles: `response.ok`
shows the success message; a non-ok status logs the status and body text
and shows the failure message; a thrown error is caught, logged and shows
the failure message.  No branch touches the task list, the stored value,
the rendered rows, or dispatches another request. -/
def resolveSync (outcome : FetchOutcome) (s : AppState) : AppState :=
  match outcome with
  | .ok => showSaveMessage "Saved to Sheet" false s
  | .httpError status body =>
      showSaveMessage "Could not save to Sheet. Please try again." true
        { s with consoleErrors := s.consoleErrors ++
            ["Could not save to Google Sheet (HTTP " ++ toString status ++ "): " ++ body] }
  | .networkError message =>
      showSaveMessage "Could not save to Sheet. Please try again." true
        { s with consoleErrors := s.consoleErrors ++
            ["Could not save to Google Sheet: " ++ message] }

/-- A fully concrete page state with the given list, inputs empty of tasks
apart, used to instantiate theorems on concrete inputs. -/
def mkState (tasks : List Task) (title status : String) : AppState :=
  { tasks := tasks, stored := .absent, rendered := [noTasksRow],
    titleInput := title, statusInput := status, alerts := [],
    saveMessages := [], consoleErrors := [], syncDispatches := [],
    events := [] }

theorem loadTasks_saveTasks (tasks : List Task) :
    loadTasks (saveTasks tasks) = tasks.map taskToJson := rfl

theorem jsonField_taskToJson (t : Task) :
    jsonField (taskToJson t) "id" = some (.num t.id) ∧
    jsonField (taskToJson t) "title" = some (.str t.title) ∧
    jsonField (taskToJson t) "status" = some (.str t.status) ∧
    jsonField (taskToJson t) "createdAt" = some (.str t.createdAt) := by
  refine ⟨?_, ?_, ?_, ?_⟩ <;> simp [jsonField, taskToJson, lookupField]

/-- C1: saving a well-formed task list and loading it back yields a list of
the same length whose entries agree with the originals on the id, title,
status and createdAt fields, element by element. -/
theorem save_load_roundtrip (tasks : List Task) :
    (loadTasks (saveTasks tasks)).length = tasks.length ∧
    (loadTasks (saveTasks tasks)).map
        (fun j => (jsonField j "id", jsonField j "title",
                   jsonField j "status", jsonField j "createdAt"))
      = tasks.map (fun t => (some (Json.num t.id), some (Json.str t.title),
          some (Json.str t.status), some (Json.str t.createdAt))) := by
  rw [loadTasks_saveTasks, List.map_map, List.length_map]
  refine ⟨rfl, ?_⟩
  induction tasks with
  | nil => rfl
  | cons t ts ih =>
    simpa [Function.comp, jsonField_taskToJson t] using ih

/-- C2 fails as stated: a persisted value that is parseable and is an array,
but not an array of Task records — here the JSON text `[1]` — is returned
as-is by `loadTasks` (the code only checks `Array.isArray`), not replaced by
the empty list. -/
theorem loadTasks_nonTaskArray_counterexample :
    loadTasks (StoredValue.value (Json.arr [Json.num 1])) = [Json.num 1] ∧
    (Json.num 1 :: []) ≠ ([] : List Json) := by
  exact ⟨rfl, by simp⟩

/-- C2 amended: when the persisted value is absent, is unparseable text, or
parses to a non-array JSON value, `loadTasks` returns the empty list and
raises no error; a parsed array, however, is returned as-is, whether or not
its elements are Task records. -/
theorem loadTasks_soft_fail :
    loadTasks .absent = [] ∧
    loadTasks .malformed = [] ∧
    (∀ j : Json, (∀ elems : List Json, j ≠ .arr elems) →
      loadTasks (.value j) = []) ∧
    (∀ elems : List Json, loadTasks (.value (.arr elems)) = elems) := by
  refine ⟨rfl, rfl, ?_, fun elems => rfl⟩
  intro j h
  match j with
  | .null => rfl
  | .bool _ => rfl
  | .num _ => rfl
  | .str _ => rfl
  | .obj _ => rfl
  | .arr elems => exact absurd rfl (h elems)

/-- Witness for the amended C2 at concrete inputs: a parsed non-array value
(the number 5) loads as the empty list. -/
theorem loadTasks_soft_fail_witness :
    loadTasks (.value (.num 5)) = [] :=
  loadTasks_soft_fail.2.2.1 (Json.num 5) (fun _ h => Json.noConfusion h)

/-- C3: when the title input is empty or whitespace-only (trims to the
empty string), `addTask` rejects synchronously: the in-memory list, the
stored value, the rendered rows and the dispatched sync requests are all
unchanged, no save/render/dispatch effect runs, and the user is notified
by exactly one alert. -/
theorem addTask_blank_title_rejected (now : Int) (nowLocale : String)
    (s : AppState) (h : jsTrim s.titleInput = "") :
    (addTask now nowLocale s).1.tasks = s.tasks ∧
    (addTask now nowLocale s).1.stored = s.stored ∧
    (addTask now nowLocale s).1.rendered = s.rendered ∧
    (addTask now nowLocale s).1.syncDispatches = s.syncDispatches ∧
    (addTask now nowLocale s).1.alerts = s.alerts ++ ["Please enter a task title."] ∧
    (addTask now nowLocale s).1.events = s.events ++ [Event.alertEv] := by
  simp [addTask, h]

/-- Witness for C3 at a concrete input: adding with the whitespace-only
title `"   "` leaves the (empty) task list empty. -/
theorem addTask_blank_title_rejected_witness :
    (addTask 1 "1/1/2024" (mkState [] "   " "pending")).1.tasks = [] :=
  (addTask_blank_title_rejected 1 "1/1/2024" (mkState [] "   " "pending")
    (by decide)).1

/-- C4: after `deleteTask taskId`, neither the in-memory list nor a
subsequent `loadTasks` of the stored value contains an entry whose id
field equals `taskId`; and when no task had that id, the list is unchanged
(and the function is total, so no error is raised). -/
theorem deleteTask_removes_id (taskId : Int) (s : AppState) :
    (∀ j ∈ loadTasks (deleteTask taskId s).stored,
      jsonField j "id" ≠ some (Json.num taskId)) ∧
    (∀ t ∈ (deleteTask taskId s).tasks, t.id ≠ taskId) ∧
    ((∀ t ∈ s.tasks, t.id ≠ taskId) → (deleteTask taskId s).tasks = s.tasks) := by
  have hst : (deleteTask taskId s).stored =
      saveTasks (s.tasks.filter fun t => t.id != taskId) := rfl
  have htk : (deleteTask taskId s).tasks =
      s.tasks.filter (fun t => t.id != taskId) := rfl
  refine ⟨?_, ?_, ?_⟩
  · intro j hj
    rw [hst, loadTasks_saveTasks] at hj
    obtain ⟨t, ht, rfl⟩ := List.mem_map.mp hj
    have hne : t.id ≠ taskId := by
      simpa using (List.mem_filter.mp ht).2
    simp [jsonField, taskToJson, lookupField, hne]
  · intro t ht
    rw [htk] at ht
    simpa using (List.mem_filter.mp ht).2
  · intro h
    rw [htk]
    exact List.filter_eq_self.mpr fun t ht => by simpa using h t ht

/-- Witness for C4 at a concrete input: deleting the absent id 2 from a
one-task list leaves the list unchanged. -/
theorem deleteTask_removes_id_witness :
    (deleteTask 2 (mkState [⟨1, "a", "pending", "c"⟩] "" "pending")).tasks =
      [⟨1, "a", "pending", "c"⟩] :=
  (deleteTask_removes_id 2 (mkState [⟨1, "a", "pending", "c"⟩] "" "pending")).2.2
    (by decide)

theorem renderTextAux_amp (l : List Char) :
    renderTextAux ('&' :: 'a' :: 'm' :: 'p' :: ';' :: l) = '&' :: renderTextAux l := rfl

theorem renderTextAux_lt (l : List Char) :
    renderTextAux ('&' :: 'l' :: 't' :: ';' :: l) = '<' :: renderTextAux l := rfl

theorem renderTextAux_gt (l : List Char) :
    renderTextAux ('&' :: 'g' :: 't' :: ';' :: l) = '>' :: renderTextAux l := rfl

theorem renderTextAux_nbsp (l : List Char) :
    renderTextAux ('&' :: 'n' :: 'b' :: 's' :: 'p' :: ';' :: l)
      = '\u00a0' :: renderTextAux l := rfl

set_option maxHeartbeats 1000000 in
theorem renderTextAux_cons (c : Char) (h : c ≠ '&') (l : List Char) :
    renderTextAux (c :: l) = c :: renderTextAux l := by
  simp [renderTextAux, h]

theorem renderTextAux_escChar (c : Char) (h1 : c ≠ '\n') (h2 : c ≠ '\r')
    (l : List Char) :
    renderTextAux (escChar c ++ l) = c :: renderTextAux l := by
  by_cases ha : c = '&'
  · subst ha; exact renderTextAux_amp l
  by_cases hb : c = '<'
  · subst hb; exact renderTextAux_lt l
  by_cases hc : c = '>'
  · subst hc; exact renderTextAux_gt l
  by_cases hd : c = '\u00a0'
  · subst hd; exact renderTextAux_nbsp l
  have he : escChar c = [c] := by simp [escChar, ha, hb, hc, hd, h1, h2]
  rw [he]
  exact renderTextAux_cons c ha l

theorem escChar_markupSafe (c : Char) (h1 : c ≠ '\n') (h2 : c ≠ '\r') :
    (escChar c).all (fun d => !(d = '<' : Bool) && !(d = '>' : Bool)) = true := by
  by_cases ha : c = '&'
  · subst ha; decide
  by_cases hb : c = '<'
  · subst hb; decide
  by_cases hc : c = '>'
  · subst hc; decide
  by_cases hd : c = '\u00a0'
  · subst hd; decide
  have he : escChar c = [c] := by simp [escChar, ha, hb, hc, hd, h1, h2]
  rw [he]
  simp [hb, hc]

theorem renderTextAux_flatMap_escChar (l : List Char)
    (h : ∀ c ∈ l, c ≠ '\n' ∧ c ≠ '\r') :
    renderTextAux (l.flatMap escChar) = l := by
  induction l with
  | nil => rfl
  | cons c l ih =>
    have hc := h c (List.mem_cons_self c l)
    rw [List.flatMap_cons, renderTextAux_escChar c hc.1 hc.2,
        ih fun d hd => h d (List.mem_cons_of_mem c hd)]

/-- C5: every task's title reaches the markup only through `escapeHtml`
(third conjunct), and for every title a single-line text input can supply
(no line breaks), the escaped form contains no `<` or `>` at all — so it
can never be interpreted as markup, quotes included, since quotes in text
content are literal — and the browser displays it as exactly the original
title text. -/
theorem escapeHtml_renders_literal (title : String)
    (h : ∀ c ∈ title.toList, c ≠ '\n' ∧ c ≠ '\r') :
    markupSafe (escapeHtml title) = true ∧
    renderText (escapeHtml title) = title ∧
    (∀ (t : Task) (tasks : List Task), t ∈ tasks →
      Row.taskRow (escapeHtml t.title) t.status t.createdAt t.id ∈
        renderTasks tasks) := by
  refine ⟨?_, ?_, ?_⟩
  · show (escapeHtml title).toList.all _ = true
    show (title.toList.flatMap escChar).all _ = true
    rw [List.all_eq_true]
    intro d hd
    obtain ⟨c, hc, hdc⟩ := List.mem_flatMap.mp hd
    have := escChar_markupSafe c (h c hc).1 (h c hc).2
    exact List.all_eq_true.mp this d hdc
  · show String.mk (renderTextAux (title.toList.flatMap escChar)) = title
    rw [renderTextAux_flatMap_escChar title.toList h]
    rfl
  · intro t tasks ht
    have hlen : tasks.length ≠ 0 := by
      simp [List.length_eq_zero]
      exact List.ne_nil_of_mem ht
    simp only [renderTasks, if_neg hlen]
    exact List.mem_map_of_mem _ ht

/-- Witness for C5 at the concrete title of the spec's scenario: the
script tag escapes to entity text that decodes back to the original. -/
theorem escapeHtml_renders_literal_witness :
    markupSafe (escapeHtml "<script>alert(1)</script>") = true ∧
    renderText (escapeHtml "<script>alert(1)</script>")
      = "<script>alert(1)</script>" :=
  ⟨(escapeHtml_renders_literal "<script>alert(1)</script>" (by decide)).1,
   (escapeHtml_renders_literal "<script>alert(1)</script>" (by decide)).2.1⟩

theorem taskRowCount_map (tasks : List Task) :
    taskRowCount (tasks.map fun t =>
      Row.taskRow (escapeHtml t.title) t.status t.createdAt t.id)
      = tasks.length := by
  induction tasks with
  | nil => rfl
  | cons t ts ih =>
    simpa [taskRowCount, List.filter_cons, Row.isTaskRow] using ih

/-- C6: rendering replaces whatever rows were shown before; an empty task
list renders exactly the single no-tasks placeholder row; a non-empty list
renders, position by position, one row per task in list order carrying the
escaped title, the status, the created-at string and the task's id on the
delete control; the task-row count always equals the task count and is
zero exactly when the placeholder is shown. -/
theorem renderTasks_rows (tasks : List Task) :
    (tasks = [] → renderTasks tasks = [noTasksRow]) ∧
    (tasks ≠ [] → ∀ i : Nat,
      (renderTasks tasks)[i]? = (tasks[i]?).map fun t =>
        Row.taskRow (escapeHtml t.title) t.status t.createdAt t.id) ∧
    taskRowCount (renderTasks tasks) = tasks.length ∧
    (taskRowCount (renderTasks tasks) = 0 ↔ renderTasks tasks = [noTasksRow]) ∧
    (∀ s : AppState, s.tasks = tasks → (doRender s).rendered = renderTasks tasks) := by
  have hcount : taskRowCount (renderTasks tasks) = tasks.length := by
    rcases tasks with _ | ⟨t, ts⟩
    · rfl
    · simp only [renderTasks, List.length_cons]
      rw [if_neg (by simp)]
      exact taskRowCount_map (t :: ts)
  refine ⟨?_, ?_, hcount, ?_, ?_⟩
  · intro h; subst h; rfl
  · intro h i
    simp [renderTasks, h, List.getElem?_map]
  · constructor
    · intro h0
      have : tasks.length = 0 := hcount ▸ h0
      have : tasks = [] := List.length_eq_zero.mp this
      subst this; rfl
    · intro hr
      rw [hr]
      rfl
  · intro s hs
    simp [doRender, hs]

/-- Witness for C6 at concrete inputs: the empty list renders the
placeholder, and a one-task list renders that task's row at index 0. -/
theorem renderTasks_rows_witness :
    renderTasks ([] : List Task) = [noTasksRow] ∧
    (renderTasks [⟨7, "a", "pending", "c"⟩])[0]?
      = some (Row.taskRow (escapeHtml "a") "pending" "c" 7) :=
  ⟨(renderTasks_rows []).1 rfl,
   ((renderTasks_rows [⟨7, "a", "pending", "c"⟩]).2.1 (by decide) 0).trans rfl⟩

/-- C7 fails in its last clause: at a concrete valid input the new task is
built, appended and persisted, but the value the function returns is
`undefined` (`none`), not the new Task — `addTask` in the source returns
nothing on every path. -/
theorem addTask_return_counterexample :
    (addTask 1700000000000 "1/1/2024" (mkState [] "Buy milk" "pending")).1.tasks
      = [{ id := 1700000000000, title := "Buy milk", status := "pending",
           createdAt := "1/1/2024" }] ∧
    (∀ t : Task,
      (addTask 1700000000000 "1/1/2024" (mkState [] "Buy milk" "pending")).2
        ≠ some t) := by
  refine ⟨by decide, ?_⟩
  intro t h
  have h2 : (addTask 1700000000000 "1/1/2024"
      (mkState [] "Buy milk" "pending")).2 = none := by decide
  rw [h2] at h
  exact Option.noConfusion h

/-- C7 amended: for every title non-blank after trimming, `addTask` builds
the new task from the call-time millisecond timestamp (as id), the trimmed
title (hence non-empty), the selected status and the locale-formatted
creation time string, appends it at the end of the list and persists the
whole updated list; the function itself returns no value (`undefined`),
the new task being observable as the last element of the list. -/
theorem addTask_appends_and_persists (now : Int) (nowLocale : String)
    (s : AppState) (h : jsTrim s.titleInput ≠ "") :
    (addTask now nowLocale s).1.tasks = s.tasks ++
      [{ id := now, title := jsTrim s.titleInput, status := s.statusInput,
         createdAt := nowLocale }] ∧
    (addTask now nowLocale s).1.stored
      = saveTasks ((addTask now nowLocale s).1.tasks) ∧
    (addTask now nowLocale s).2 = none := by
  simp [addTask, h, doSave, doRender, doDispatchSync]

/-- Witness for the amended C7 at a concrete input. -/
theorem addTask_appends_and_persists_witness :
    (addTask 5 "1/1/2024" (mkState [] "Buy milk" "pending")).1.tasks
      = [{ id := 5, title := "Buy milk", status := "pending",
           createdAt := "1/1/2024" }] :=
  (addTask_appends_and_persists 5 "1/1/2024" (mkState [] "Buy milk" "pending")
    (by decide)).1

/-- C8: a successful add performs exactly the local save, then the
re-render, then the sync dispatch, in that order, and completes without
awaiting the dispatched request (fire and forget); and however the request
settles, its continuation touches only the transient message region and
the console — the task list, the stored value, the rendered rows and the
set of dispatched requests are left unchanged (no rollback, no
modification of the local save). -/
theorem addTask_effect_order (now : Int) (nowLocale : String) (s : AppState)
    (h : jsTrim s.titleInput ≠ "") :
    (addTask now nowLocale s).1.events
      = s.events ++ [Event.saveEv, Event.renderEv, Event.syncDispatchEv] ∧
    (∀ (o : FetchOutcome) (s2 : AppState),
      (resolveSync o s2).tasks = s2.tasks ∧
      (resolveSync o s2).stored = s2.stored ∧
      (resolveSync o s2).rendered = s2.rendered ∧
      (resolveSync o s2).syncDispatches = s2.syncDispatches) := by
  constructor
  · simp [addTask, h, doSave, doRender, doDispatchSync]
  · intro o s2
    cases o <;> simp [resolveSync, showSaveMessage]

/-- Witness for C8 at a concrete input. -/
theorem addTask_effect_order_witness :
    (addTask 5 "1/1/2024" (mkState [] "Buy milk" "pending")).1.events
      = [Event.saveEv, Event.renderEv, Event.syncDispatchEv] :=
  (addTask_effect_order 5 "1/1/2024" (mkState [] "Buy milk" "pending")
    (by decide)).1

/-- C9: the direct-POST sync request body is a JSON object carrying exactly
the fields title and status of the synced task; an ok response appends only
the transient success message; a non-ok status or a network error appends
one console line with the error detail and the transient failure message;
and no outcome dispatches another request (no retry, no queue). -/
theorem sendTaskToSheet_protocol (t : Task) (s : AppState) :
    jsonField (syncBody t) "title" = some (Json.str t.title) ∧
    jsonField (syncBody t) "status" = some (Json.str t.status) ∧
    (∀ key : String, jsonField (syncBody t) key ≠ none →
      key = "title" ∨ key = "status") ∧
    ((resolveSync .ok s).saveMessages
        = s.saveMessages ++ [("Saved to Sheet", false)] ∧
      (resolveSync .ok s).consoleErrors = s.consoleErrors) ∧
    (∀ (status : Nat) (body : String),
      (resolveSync (.httpError status body) s).saveMessages
        = s.saveMessages ++ [("Could not save to Sheet. Please try again.", true)] ∧
      (resolveSync (.httpError status body) s).consoleErrors
        = s.consoleErrors ++ ["Could not save to Google Sheet (HTTP "
            ++ toString status ++ "): " ++ body]) ∧
    (∀ message : String,
      (resolveSync (.networkError message) s).saveMessages
        = s.saveMessages ++ [("Could not save to Sheet. Please try again.", true)] ∧
      (resolveSync (.networkError message) s).consoleErrors
        = s.consoleErrors ++ ["Could not save to Google Sheet: " ++ message]) ∧
    (∀ o : FetchOutcome, (resolveSync o s).syncDispatches = s.syncDispatches) := by
  refine ⟨by simp [jsonField, syncBody, lookupField],
    by simp [jsonField, syncBody, lookupField], ?_, ⟨rfl, rfl⟩,
    fun status body => ⟨rfl, rfl⟩, fun message => ⟨rfl, rfl⟩,
    fun o => by cases o <;> rfl⟩
  intro key hk
  by_cases h1 : ("title" : String) = key
  · exact Or.inl h1.symm
  by_cases h2 : ("status" : String) = key
  · exact Or.inr h2.symm
  exact absurd (by simp [jsonField, syncBody, lookupField, h1, h2]) hk

/-- Witness for C9 at concrete inputs: the key "status" is defined on the
request body of a concrete task, hence is one of the two sent fields. -/
theorem sendTaskToSheet_protocol_witness :
    ("status" : String) = "title" ∨ ("status" : String) = "status" :=
  (sendTaskToSheet_protocol ⟨1, "Buy milk", "pending", "1/1/2024"⟩
      (mkState [] "" "pending")).2.2.1 "status"
    (by simp [jsonField, syncBody, lookupField])

/-- C10: `deleteTask` keeps exactly the tasks whose id differs from the
given one: the result is a subsequence of the original list (relative
order kept, every kept task unchanged and present in the original); with
multiplicity, every task value carrying the targeted id drops to zero
occurrences (duplicated ids are all removed by one call) while every other
task value keeps its exact count; and a second identical delete changes
nothing — list, stored value and rendered rows are already stable. -/
theorem deleteTask_exact (taskId : Int) (s : AppState) :
    List.Sublist (deleteTask taskId s).tasks s.tasks ∧
    (∀ t : Task, ((deleteTask taskId s).tasks).count t
      = if t.id = taskId then 0 else s.tasks.count t) ∧
    (∀ t ∈ (deleteTask taskId s).tasks, t ∈ s.tasks ∧ t.id ≠ taskId) ∧
    (deleteTask taskId (deleteTask taskId s)).tasks
      = (deleteTask taskId s).tasks ∧
    (deleteTask taskId (deleteTask taskId s)).stored
      = (deleteTask taskId s).stored ∧
    (deleteTask taskId (deleteTask taskId s)).rendered
      = (deleteTask taskId s).rendered := by
  have htk : (deleteTask taskId s).tasks
      = s.tasks.filter (fun t => t.id != taskId) := rfl
  have hff : ((s.tasks.filter fun t => t.id != taskId).filter
      fun t => t.id != taskId) = s.tasks.filter fun t => t.id != taskId :=
    List.filter_eq_self.mpr fun a ha => (List.mem_filter.mp ha).2
  refine ⟨htk ▸ List.filter_sublist s.tasks, ?_, ?_, ?_, ?_, ?_⟩
  · intro t
    by_cases hid : t.id = taskId
    · rw [if_pos hid, htk]
      refine List.count_eq_zero.mpr fun hmem => ?_
      have := (List.mem_filter.mp hmem).2
      simp [hid] at this
    · rw [if_neg hid, htk]
      exact List.count_filter (by simp [hid])
  · intro t ht
    rw [htk] at ht
    exact ⟨(List.mem_filter.mp ht).1, by simpa using (List.mem_filter.mp ht).2⟩
  · show ((s.tasks.filter fun t => t.id != taskId).filter
        fun t => t.id != taskId) = s.tasks.filter fun t => t.id != taskId
    exact hff
  · show saveTasks ((s.tasks.filter fun t => t.id != taskId).filter
        fun t => t.id != taskId) = saveTasks (s.tasks.filter fun t => t.id != taskId)
    rw [hff]
  · show renderTasks ((s.tasks.filter fun t => t.id != taskId).filter
        fun t => t.id != taskId) = renderTasks (s.tasks.filter fun t => t.id != taskId)
    rw [hff]

/-- Witness for C10 at a concrete input with a duplicated id: the task
with the other id survives one delete of id 5. -/
theorem deleteTask_exact_witness :
    (⟨6, "x", "pending", "c"⟩ : Task) ∈
      (mkState [⟨5, "a", "pending", "c"⟩, ⟨5, "b", "pending", "c"⟩,
        ⟨6, "x", "pending", "c"⟩] "" "pending").tasks ∧ (6 : Int) ≠ 5 :=
  (deleteTask_exact 5 (mkState [⟨5, "a", "pending", "c"⟩,
      ⟨5, "b", "pending", "c"⟩, ⟨6, "x", "pending", "c"⟩] "" "pending")).2.2.1
    ⟨6, "x", "pending", "c"⟩ (by decide)

end TaskManager
